import Mathlib

/-!
Shallow embedding of `src/social_auth/backends/bitbucket.py` (the Bitbucket
OAuth2 backend): the email-resolution helper `_fetch_primary_email`, the
normalization `BitbucketBackend.get_user_details`, the identifier extraction
`BitbucketBackend.get_user_id`, the profile fetch `BitbucketAuth.user_data`,
and the outbound URL construction (`urlencode` / `quote_plus`).

Python values flowing through these functions are modelled by a small JSON
value type `Json` (Python `None` is `Json.null`); Python dicts are association
lists with distinct keys, looked up by `dictGet`.  Python exceptions are
modelled by `Except PyErr`.  The network-and-parse step
`simplejson.load(dsa_urlopen(url))` is abstracted by a `LoadOutcome` argument:
either a parsed JSON body, or one of the exceptions that expression can raise
(`HTTPError` from the request, some other `URLError`-style transport failure,
or a `ValueError` from parsing a malformed body).
-/

/-- JSON-ish values as produced by `simplejson.load`; `null` doubles as
Python `None`. -/
inductive Json where
  | null : Json
  | bool (b : Bool) : Json
  | num (n : Int) : Json
  | str (s : String) : Json
  | arr (elems : List Json) : Json
  | obj (entries : List (String × Json)) : Json

/-- Python exceptions raised by the embedded code paths. -/
inductive PyErr where
  | keyError
  | attributeError
  | typeError
  | httpError
  | urlError
  | valueError
deriving DecidableEq, Repr

/-- Outcome of evaluating `simplejson.load(dsa_urlopen(url))` for some URL:
the parsed body on success, or the exception raised.  `httpError` is
`urllib.error.HTTPError` from the request; `urlError` stands for any other
transport-level failure (plain `URLError`, timeouts); `valueError` is the
`ValueError` raised by `simplejson` on a malformed / non-JSON body. -/
inductive LoadOutcome where
  | ok (body : Json) : LoadOutcome
  | httpError : LoadOutcome
  | urlError : LoadOutcome
  | valueError : LoadOutcome

/-- Python dict lookup (dicts have distinct keys, so first match suffices). -/
def dictGet : List (String × Json) → String → Option Json
  | [], _ => none
  | (k, v) :: rest, key => if k = key then some v else dictGet rest key

/-- Python truthiness of a JSON value (`if x:`). -/
def truthy : Json → Bool
  | Json.null => false
  | Json.bool b => b
  | Json.num n => n != 0
  | Json.str s => s != ""
  | Json.arr xs => !xs.isEmpty
  | Json.obj kvs => !kvs.isEmpty

/-- Python `x.get(k, d)`: defaulting dict lookup; raises `AttributeError`
when `x` is not a dict. -/
def pyGet (j : Json) (k : String) (d : Json) : Except PyErr Json :=
  match j with
  | Json.obj es => Except.ok ((dictGet es k).getD d)
  | _ => Except.error PyErr.attributeError

/-- The loop of `_fetch_primary_email` (bitbucket.py lines 51-56):
`primary = ''`, then scan the records and on the first one whose
`is_primary` is truthy set `primary = email.get('email', '')` and break. -/
def emailLoop : List Json → Except PyErr Json
  | [] => Except.ok (Json.str "")
  | e :: rest => do
      let ip ← pyGet e "is_primary" (Json.bool false)
      if truthy ip then pyGet e "email" (Json.str "")
      else emailLoop rest

/-- `BitbucketBackend._fetch_primary_email` (bitbucket.py lines 39-56), with
the network-and-parse step for the emails URL abstracted by `outcome`.  The
`try` block covers `simplejson.load(dsa_urlopen(url)).get('values', [])` and
catches exactly `(ValueError, HTTPError)`, substituting `emails = []`; any
other exception propagates.  A successful body whose `values` entry is not a
list would make Python iterate a non-list; that exotic path is collapsed to
`TypeError` here (no claim touches it). -/
def fetch_primary_email (outcome : LoadOutcome) : Except PyErr Json :=
  match outcome with
  | LoadOutcome.ok body => do
      let vals ← pyGet body "values" (Json.arr [])
      match vals with
      | Json.arr emails => emailLoop emails
      | _ => Except.error PyErr.typeError
  | LoadOutcome.httpError => emailLoop []
  | LoadOutcome.valueError => emailLoop []
  | LoadOutcome.urlError => Except.error PyErr.urlError

/-- The `details` dict built by `get_user_details`.  Its key set is fixed by
the code (`username`, `email`, always `first_name`, and `last_name` exactly
when the unpacking of `name.split(' ', 1)` succeeded), so it is rendered as a
structure with an `Option` for the conditional key. -/
structure UserDetails where
  username : Json
  email : Json
  first_name : Json
  last_name : Option Json

/-- Python `name.split(' ', 1)` followed by unpacking into two variables:
splits at the FIRST literal space character only; `none` models the
`ValueError` path (fewer than two parts, i.e. no space present). -/
def splitAtFirstSpace : List Char → Option (List Char × List Char)
  | [] => none
  | c :: cs =>
      if c = ' ' then some ([], cs)
      else
        match splitAtFirstSpace cs with
        | some (a, b) => some (c :: a, b)
        | none => none

/-- `BitbucketBackend.get_user_details` (bitbucket.py lines 58-74).
`response` is the raw profile dict; `emailOutcome` abstracts the network
round-trip of `self._fetch_primary_email(response.get('access_token'))`
(the token only shapes the URL, see `emails_url`).  Faithful to source
order: `name = response.get('display_name') or ''` first, then the email
fetch, then the name split (so an exception from the email call precedes any
`AttributeError` from splitting a non-string name). -/
def get_user_details (response : List (String × Json)) (emailOutcome : LoadOutcome) :
    Except PyErr UserDetails := do
  let dn := (dictGet response "display_name").getD Json.null
  let name := if truthy dn then dn else Json.str ""
  let username := (dictGet response "username").getD Json.null
  let email ← fetch_primary_email emailOutcome
  let nameStr ← match name with
    | Json.str s => Except.ok s
    | _ => Except.error PyErr.attributeError
  match splitAtFirstSpace nameStr.data with
  | none =>
      Except.ok { username := username, email := email,
                  first_name := Json.str nameStr, last_name := none }
  | some (f, l) =>
      Except.ok { username := username, email := email,
                  first_name := Json.str (String.mk f),
                  last_name := some (Json.str (String.mk l)) }

/-- `BitbucketBackend.get_user_id` (bitbucket.py lines 76-79):
`return response['uuid']`; a bare subscript raises `KeyError` when the key
is absent.  The `details` argument is unused, as in the source. -/
def get_user_id (_details : UserDetails) (response : List (String × Json)) :
    Except PyErr Json :=
  match dictGet response "uuid" with
  | some v => Except.ok v
  | none => Except.error PyErr.keyError

/-- `BitbucketAuth.user_data` (bitbucket.py lines 91-103): the `try` block is
`simplejson.load(dsa_urlopen(url))` and catches exactly `ValueError`,
substituting `data = None` (modelled `Except.ok none`); an `HTTPError` or
other transport failure propagates. -/
def user_data (outcome : LoadOutcome) : Except PyErr (Option Json) :=
  match outcome with
  | LoadOutcome.ok body => Except.ok (some body)
  | LoadOutcome.valueError => Except.ok none
  | LoadOutcome.httpError => Except.error PyErr.httpError
  | LoadOutcome.urlError => Except.error PyErr.urlError

/-! URL construction: `six.moves.urllib.parse.urlencode` over a dict with
string keys, quoting keys and values with `quote_plus` (always-safe ASCII
characters and space-to-plus; everything else percent-encoded from its UTF-8
bytes, uppercase hex).  The `pagelen` value `100` is an int that `urlencode`
stringifies to `"100"`; it is passed here already as a string. -/

/-- Characters `urllib` never quotes: ASCII alphanumerics and `_.-~`. -/
def isAlwaysSafe (c : Char) : Bool :=
  (c.isAlphanum && c.toNat < 128) || c = '_' || c = '.' || c = '-' || c = '~'

/-- UTF-8 encoding of one character, as byte values. -/
def utf8Bytes (c : Char) : List Nat :=
  let n := c.toNat
  if n < 128 then [n]
  else if n < 2048 then [192 + n / 64, 128 + n % 64]
  else if n < 65536 then [224 + n / 4096, 128 + (n / 64) % 64, 128 + n % 64]
  else [240 + n / 262144, 128 + (n / 4096) % 64, 128 + (n / 64) % 64, 128 + n % 64]

/-- Uppercase hex digit. -/
def hexDigit (n : Nat) : Char :=
  if n < 10 then Char.ofNat (48 + n) else Char.ofNat (55 + n)

/-- `%XX` percent-encoding of one byte. -/
def percentByte (b : Nat) : List Char :=
  ['%', hexDigit (b / 16), hexDigit (b % 16)]

/-- Quoting of one character under `quote_plus`. -/
def quoteChar (c : Char) : List Char :=
  if c = ' ' then ['+']
  else if isAlwaysSafe c then [c]
  else ((utf8Bytes c).map percentByte).flatten

/-- Python `urllib`'s `quote_plus`. -/
def quote_plus (s : String) : String :=
  String.mk (s.data.flatMap quoteChar)

/-- Python `urlencode` over an ordered dict rendered as a key-value list. -/
def urlencode (params : List (String × String)) : String :=
  String.intercalate "&" (params.map (fun kv => quote_plus kv.1 ++ "=" ++ quote_plus kv.2))

/-- Module constant `BITBUCKET_USER_DATA_URL` (bitbucket.py line 25). -/
def BITBUCKET_USER_DATA_URL : String := "https://bitbucket.org/api/2.0/user/"

/-- URL built by `_fetch_primary_email` (bitbucket.py lines 41-45). -/
def emails_url (access_token : String) : String :=
  BITBUCKET_USER_DATA_URL ++ "/emails?" ++ urlencode
    [("fields", "-values.links"), ("pagelen", "100"), ("access_token", access_token)]

/-- URL built by `user_data` (bitbucket.py lines 93-96). -/
def user_data_url (access_token : String) : String :=
  BITBUCKET_USER_DATA_URL ++ "?" ++ urlencode
    [("fields", "-links"), ("access_token", access_token)]

/-! Typed email records, for stating the selection rule of the spec: each
record carried by the `values` array of the emails endpoint has an `email`
string and an `is_primary` boolean. -/

/-- One email record as described by the spec. -/
structure EmailRec where
  email : String
  is_primary : Bool

/-- An `EmailRec` rendered as the JSON object the endpoint returns. -/
def EmailRec.toJson (r : EmailRec) : Json :=
  Json.obj [("email", Json.str r.email), ("is_primary", Json.bool r.is_primary)]

/-- The emails-endpoint body carrying the given records. -/
def emailsBody (rs : List EmailRec) : Json :=
  Json.obj [("values", Json.arr (rs.map EmailRec.toJson))]

/-! Helper lemmas. -/

/-- The scan of `emailLoop` over well-typed records picks the first record
whose `is_primary` is set, returning its `email`, and falls back to the
empty string. -/
theorem emailLoop_map (rs : List EmailRec) :
    emailLoop (rs.map EmailRec.toJson) =
      Except.ok (Json.str (match rs.find? (fun r => r.is_primary) with
        | some r => r.email
        | none => "")) := by
  induction rs with
  | nil => rfl
  | cons r rs ih =>
      cases hp : r.is_primary with
      | false =>
          simp only [List.map_cons, emailLoop, EmailRec.toJson, pyGet, dictGet]
          simp only [truthy, hp, ih, List.find?_cons_of_neg, Bool.false_eq_true,
            not_false_eq_true]
          rfl
      | true =>
          simp only [List.map_cons, emailLoop, EmailRec.toJson, pyGet, dictGet]
          simp only [truthy, hp, List.find?_cons_of_pos]
          rfl

/-- claim C1: for every list of email records, `_fetch_primary_email`
returns the `email` field of the first record (in response order) whose
primary flag is true, and the empty string when no record is primary. -/
theorem fetch_primary_email_selects_first_primary (rs : List EmailRec) :
    fetch_primary_email (LoadOutcome.ok (emailsBody rs)) =
      Except.ok (Json.str (match rs.find? (fun r => r.is_primary) with
        | some r => r.email
        | none => "")) := by
  exact emailLoop_map rs

/-- claim C3 counterexample: a transport failure that is not an
`HTTPError` (a plain `URLError`, e.g. a refused connection or timeout) is a
request failure on which `_fetch_primary_email` propagates the exception
instead of returning the empty string. -/
theorem email_fetch_urlerror_propagates :
    fetch_primary_email LoadOutcome.urlError = Except.error PyErr.urlError ∧
      (Except.error PyErr.urlError : Except PyErr Json) ≠ Except.ok (Json.str "") := by
  exact ⟨rfl, by simp⟩

/-- claim C3 (amended): `_fetch_primary_email` degrades an `HTTPError`
response and a body-parse `ValueError` to the empty string, but any other
transport failure (`URLError` and kin) propagates out of it. -/
theorem email_fetch_failure_policy :
    fetch_primary_email LoadOutcome.httpError = Except.ok (Json.str "") ∧
    fetch_primary_email LoadOutcome.valueError = Except.ok (Json.str "") ∧
    fetch_primary_email LoadOutcome.urlError = Except.error PyErr.urlError := by
  exact ⟨rfl, rfl, rfl⟩

/-- claim C4: a malformed / non-JSON body from the primary profile endpoint
makes `user_data` return the explicit no-profile sentinel `None` instead of
raising. -/
theorem user_data_malformed_body_yields_none :
    user_data LoadOutcome.valueError = Except.ok none := rfl

/-- Bind of a success just applies the continuation. -/
theorem exceptBind_ok {α β : Type} (x : α) (f : α → Except PyErr β) :
    (Except.ok x >>= f) = f x := rfl

/-- Bind of a failure short-circuits. -/
theorem exceptBind_err {α β : Type} (e : PyErr) (f : α → Except PyErr β) :
    ((Except.error e : Except PyErr α) >>= f) = Except.error e := rfl

/-- Splitting at the first space finds nothing exactly when there is no
space character. -/
theorem splitAtFirstSpace_eq_none_iff (cs : List Char) :
    splitAtFirstSpace cs = none ↔ ' ' ∉ cs := by
  induction cs with
  | nil => simp [splitAtFirstSpace]
  | cons c cs ih =>
      by_cases hc : c = ' '
      · subst hc
        simp [splitAtFirstSpace]
      · simp only [splitAtFirstSpace, if_neg hc]
        cases hsp : splitAtFirstSpace cs with
        | none =>
            have h1 : ' ' ∉ cs := ih.mp hsp
            have h2 : ¬ (' ' = c) := fun hh => hc hh.symm
            simp [List.mem_cons, h1, h2]
        | some p =>
            obtain ⟨f, l⟩ := p
            have hmem : ' ' ∈ cs := by
              by_contra hm
              rw [ih.mpr hm] at hsp
              exact Option.noConfusion hsp
            simp [List.mem_cons, hmem]

/-- Splitting `as ++ ' ' :: bs` at the first space, with no space in `as`,
yields exactly `(as, bs)`. -/
theorem splitAtFirstSpace_append (as bs : List Char) (h : ' ' ∉ as) :
    splitAtFirstSpace (as ++ ' ' :: bs) = some (as, bs) := by
  induction as with
  | nil => simp [splitAtFirstSpace]
  | cons c cs ih =>
      simp only [List.mem_cons, not_or] at h
      have hc : ¬ (c = ' ') := fun e => h.1 e.symm
      simp only [List.cons_append, splitAtFirstSpace, if_neg hc, List.append_eq, ih h.2]

/-- claim C2 counterexample: a raw profile lacking `uuid` whose other fields
are valid; `get_user_details` (the spec's `normalize`) succeeds on it
rather than failing with the missing-identifier error. -/
theorem normalize_succeeds_without_uuid :
    dictGet [("username", Json.str "grace"), ("display_name", Json.str "Grace Hopper")]
        "uuid" = none ∧
    get_user_details [("username", Json.str "grace"), ("display_name", Json.str "Grace Hopper")]
        (LoadOutcome.ok (emailsBody [])) =
      Except.ok ⟨Json.str "grace", Json.str "", Json.str "Grace", some (Json.str "Hopper")⟩ :=
  ⟨rfl, rfl⟩

/-- claim C2 (amended): extracting the unique id from a raw profile lacking
`uuid` fails hard (`response['uuid']` raises `KeyError`, the
missing-identifier error); `get_user_details` itself does not consult
`uuid`, so only the id-extraction step fails on such a profile. -/
theorem get_user_id_fails_without_uuid (d : UserDetails) (response : List (String × Json))
    (h : dictGet response "uuid" = none) :
    get_user_id d response = Except.error PyErr.keyError := by
  unfold get_user_id
  rw [h]

/-- claim C2 witness: concrete uuid-less profile on which id extraction
fails. -/
theorem get_user_id_fails_without_uuid_witness :
    get_user_id ⟨Json.str "grace", Json.str "", Json.str "Grace", some (Json.str "Hopper")⟩
      [("username", Json.str "grace"), ("display_name", Json.str "Grace Hopper")] =
      Except.error PyErr.keyError :=
  get_user_id_fails_without_uuid
    ⟨Json.str "grace", Json.str "", Json.str "Grace", some (Json.str "Hopper")⟩
    [("username", Json.str "grace"), ("display_name", Json.str "Grace Hopper")] rfl

/-- claim C5 counterexample: for displayName `"A  B"` (two spaces) the
claimed whitespace-run split would give `lastName = "B"`, but the code
splits at the first space character only and yields `last_name = " B"`. -/
theorem name_split_two_spaces_counterexample :
    get_user_details [("display_name", Json.str "A  B")] (LoadOutcome.ok (emailsBody [])) =
      Except.ok ⟨Json.null, Json.str "", Json.str "A", some (Json.str " B")⟩ ∧
    Json.str " B" ≠ Json.str "B" :=
  ⟨rfl, by simp⟩

/-- claim C5 (amended): `get_user_details` splits the displayName at the
first space character only: the text before that space becomes
`first_name` and everything after it, verbatim, becomes `last_name`; if
the string contains no space character, the entire name becomes
`first_name` and no `last_name` entry is produced. -/
theorem name_split_first_space_char :
    (∀ (a b : String) (response : List (String × Json)) (o : LoadOutcome) (e : Json),
        ' ' ∉ a.data →
        dictGet response "display_name" = some (Json.str (a ++ " " ++ b)) →
        fetch_primary_email o = Except.ok e →
        get_user_details response o =
          Except.ok ⟨(dictGet response "username").getD Json.null, e,
                     Json.str a, some (Json.str b)⟩) ∧
    (∀ (a : String) (response : List (String × Json)) (o : LoadOutcome) (e : Json),
        ' ' ∉ a.data →
        dictGet response "display_name" = some (Json.str a) →
        fetch_primary_email o = Except.ok e →
        get_user_details response o =
          Except.ok ⟨(dictGet response "username").getD Json.null, e,
                     Json.str a, none⟩) := by
  constructor
  · intro a b response o e ha hdn hfe
    have hdata : (a ++ " " ++ b).data = a.data ++ ' ' :: b.data := by
      show (a.data ++ [' ']) ++ b.data = _
      simp [List.append_assoc]
    have hne : (a ++ " " ++ b) ≠ "" := by
      intro hcon
      have h2 := congrArg String.data hcon
      rw [hdata] at h2
      exact absurd h2 (by simp)
    have htr : truthy (Json.str (a ++ " " ++ b)) = true := by simp [truthy, hne]
    simp only [get_user_details, hdn, Option.getD_some, htr, if_true, hfe, exceptBind_ok]
    rw [hdata, splitAtFirstSpace_append a.data b.data ha]
  · intro a response o e ha hdn hfe
    by_cases hae : a = ""
    · subst hae
      simp only [get_user_details, hdn, Option.getD_some, truthy, hfe]
      simp [exceptBind_ok, splitAtFirstSpace]
    · have htr : truthy (Json.str a) = true := by simp [truthy, hae]
      simp only [get_user_details, hdn, Option.getD_some, htr, if_true, hfe, exceptBind_ok]
      rw [(splitAtFirstSpace_eq_none_iff a.data).mpr ha]

/-- claim C5 witness: the split on `"Ada Lovelace"` and the no-space case
`"Madonna"`, both via the amended split theorem. -/
theorem name_split_first_space_char_witness :
    get_user_details [("display_name", Json.str "Ada Lovelace")]
        (LoadOutcome.ok (emailsBody [])) =
      Except.ok ⟨Json.null, Json.str "", Json.str "Ada", some (Json.str "Lovelace")⟩ ∧
    get_user_details [("display_name", Json.str "Madonna")]
        (LoadOutcome.ok (emailsBody [])) =
      Except.ok ⟨Json.null, Json.str "", Json.str "Madonna", none⟩ :=
  ⟨name_split_first_space_char.1 "Ada" "Lovelace" [("display_name", Json.str "Ada Lovelace")]
      (LoadOutcome.ok (emailsBody [])) (Json.str "") (by decide) rfl rfl,
   name_split_first_space_char.2 "Madonna" [("display_name", Json.str "Madonna")]
      (LoadOutcome.ok (emailsBody [])) (Json.str "") (by decide) rfl rfl⟩

/-- claim C6 counterexample: on the whitespace-only displayName `"  "` the
code yields `last_name = " "` (one space, the untrimmed remainder after the
first space), not the claimed `""`. -/
theorem whitespace_only_display_name_counterexample :
    get_user_details [("display_name", Json.str "  ")] (LoadOutcome.ok (emailsBody [])) =
      Except.ok ⟨Json.null, Json.str "", Json.str "", some (Json.str " ")⟩ ∧
    Json.str " " ≠ Json.str "" :=
  ⟨rfl, by simp⟩

/-- claim C6 (amended): for the whitespace-only displayName `"  "`,
`get_user_details` yields `first_name = ""` and `last_name = " "` — the
text after the first space character kept verbatim, with no trimming
anywhere — and the result is this one fixed value (deterministic). -/
theorem whitespace_only_display_name_result :
    get_user_details [("display_name", Json.str "  ")] (LoadOutcome.ok (emailsBody [])) =
      Except.ok ⟨Json.null, Json.str "", Json.str "", some (Json.str " ")⟩ := rfl

/-- claim C7 counterexample: a profile whose `uuid` field is present but
equal to the empty string; the whole resolution succeeds and `get_user_id`
returns the empty string as the unique id. -/
theorem empty_uuid_returned_verbatim :
    get_user_details [("uuid", Json.str ""), ("username", Json.str "u")]
        (LoadOutcome.ok (emailsBody [])) =
      Except.ok ⟨Json.str "u", Json.str "", Json.str "", none⟩ ∧
    get_user_id ⟨Json.str "u", Json.str "", Json.str "", none⟩
        [("uuid", Json.str ""), ("username", Json.str "u")] =
      Except.ok (Json.str "") :=
  ⟨rfl, rfl⟩

/-- claim C7 (amended): absence of `uuid` is a hard failure of
`get_user_id` (never a soft default), and on success `get_user_id` returns
exactly the stored `uuid` value — it is not checked for non-emptiness, so
a present-but-empty uuid is passed through verbatim. -/
theorem unique_id_presence_contract :
    (∀ (d : UserDetails) (response : List (String × Json)),
        dictGet response "uuid" = none →
        get_user_id d response = Except.error PyErr.keyError) ∧
    (∀ (d : UserDetails) (response : List (String × Json)) (v : Json),
        get_user_id d response = Except.ok v → dictGet response "uuid" = some v) := by
  constructor
  · intro d response h
    unfold get_user_id
    rw [h]
  · intro d response v h
    unfold get_user_id at h
    cases hu : dictGet response "uuid" with
    | none =>
        rw [hu] at h
        exact absurd h (by simp)
    | some w =>
        rw [hu] at h
        injection h with hw
        rw [hw]

/-- claim C7 witness: both directions of the id contract at concrete
inputs. -/
theorem unique_id_presence_contract_witness :
    get_user_id ⟨Json.null, Json.null, Json.null, none⟩ [("username", Json.str "u")] =
      Except.error PyErr.keyError ∧
    dictGet [("uuid", Json.str "abc-123")] "uuid" = some (Json.str "abc-123") :=
  ⟨unique_id_presence_contract.1 ⟨Json.null, Json.null, Json.null, none⟩
      [("username", Json.str "u")] rfl,
   unique_id_presence_contract.2 ⟨Json.null, Json.null, Json.null, none⟩
      [("uuid", Json.str "abc-123")] (Json.str "abc-123") rfl⟩

/-- Quoting one always-safe character keeps it. -/
theorem flatMap_quoteChar_safe (cs : List Char) (h : ∀ c ∈ cs, isAlwaysSafe c = true) :
    cs.flatMap quoteChar = cs := by
  induction cs with
  | nil => rfl
  | cons c cs ih =>
      have hc := h c (List.mem_cons_self c cs)
      have hsp : ¬ (c = ' ') := by
        intro hcon
        subst hcon
        simp [isAlwaysSafe] at hc
      simp only [List.flatMap_cons, quoteChar, if_neg hsp, if_pos hc,
        ih (fun x hx => h x (List.mem_cons_of_mem c hx))]
      rfl

/-- `quote_plus` is the identity on strings of always-safe characters. -/
theorem quote_plus_safe (s : String) (h : ∀ c ∈ s.data, isAlwaysSafe c = true) :
    quote_plus s = s := by
  show String.mk (s.data.flatMap quoteChar) = s
  rw [flatMap_quoteChar_safe s.data h]

/-- claim C8: for every access token `t` (of URL-safe characters, where
quoting is the identity), the primary profile URL is
`userDataURL?fields=-links&access_token=t` and the email sub-resource URL is
`userDataURL/emails?fields=-values.links&pagelen=100&access_token=t`, with
the query parameters in exactly that order. -/
theorem outbound_request_urls (t : String) (h : ∀ c ∈ t.data, isAlwaysSafe c = true) :
    user_data_url t = BITBUCKET_USER_DATA_URL ++ "?fields=-links&access_token=" ++ t ∧
    emails_url t =
      BITBUCKET_USER_DATA_URL ++ "/emails?fields=-values.links&pagelen=100&access_token=" ++ t := by
  have hq := quote_plus_safe t h
  constructor
  · simp only [user_data_url, urlencode, List.map_cons, List.map_nil, hq]
    rfl
  · simp only [emails_url, urlencode, List.map_cons, List.map_nil, hq]
    rfl

/-- claim C8 witness: the two URLs at the concrete token `"tok123"`. -/
theorem outbound_request_urls_witness :
    user_data_url "tok123" =
      BITBUCKET_USER_DATA_URL ++ "?fields=-links&access_token=" ++ "tok123" ∧
    emails_url "tok123" =
      BITBUCKET_USER_DATA_URL ++ "/emails?fields=-values.links&pagelen=100&access_token=" ++ "tok123" :=
  outbound_request_urls "tok123" (by decide)

/-- claim C9: `get_user_details` is a pure function of the raw profile and
the (assumed deterministic) email sub-call outcome, so two calls on the
same inputs yield identical results. -/
theorem get_user_details_deterministic (response : List (String × Json))
    (o o2 : LoadOutcome) (h : o = o2) :
    get_user_details response o = get_user_details response o2 := by
  rw [h]

/-- claim C9 witness: determinism at a concrete profile and email
outcome. -/
theorem get_user_details_deterministic_witness :
    get_user_details [("username", Json.str "grace"), ("display_name", Json.str "Grace Hopper")]
        (LoadOutcome.ok (emailsBody [⟨"grace@x.com", true⟩])) =
      get_user_details [("username", Json.str "grace"), ("display_name", Json.str "Grace Hopper")]
        (LoadOutcome.ok (emailsBody [⟨"grace@x.com", true⟩])) :=
  get_user_details_deterministic
    [("username", Json.str "grace"), ("display_name", Json.str "Grace Hopper")]
    (LoadOutcome.ok (emailsBody [⟨"grace@x.com", true⟩]))
    (LoadOutcome.ok (emailsBody [⟨"grace@x.com", true⟩])) rfl

/-- Inversion for a successful `get_user_details`: the name pipeline went
through some string `s`, and the `last_name` entry of the result is exactly
what splitting `s` at its first space produced. -/
theorem get_user_details_ok_inv (response : List (String × Json)) (o : LoadOutcome)
    (d : UserDetails) (hok : get_user_details response o = Except.ok d) :
    ∃ s : String,
      (if truthy ((dictGet response "display_name").getD Json.null)
          then (dictGet response "display_name").getD Json.null
          else Json.str "") = Json.str s ∧
      d.last_name = (match splitAtFirstSpace s.data with
                     | none => none
                     | some (_, l) => some (Json.str (String.mk l))) := by
  cases hfe : fetch_primary_email o with
  | error e =>
      simp only [get_user_details, hfe, exceptBind_err] at hok
      exact absurd hok (by simp)
  | ok email =>
      simp only [get_user_details, hfe, exceptBind_ok] at hok
      cases hname : (if truthy ((dictGet response "display_name").getD Json.null)
          then (dictGet response "display_name").getD Json.null
          else Json.str "") with
      | str s =>
          rw [hname] at hok
          simp only [exceptBind_ok] at hok
          refine ⟨s, rfl, ?_⟩
          cases hsp : splitAtFirstSpace s.data with
          | none =>
              rw [hsp] at hok
              injection hok with hd
              rw [← hd]
          | some p =>
              obtain ⟨f, l⟩ := p
              rw [hsp] at hok
              injection hok with hd
              rw [← hd]
      | null =>
          rw [hname] at hok
          simp [exceptBind_err] at hok
      | bool b =>
          rw [hname] at hok
          simp [exceptBind_err] at hok
      | num n =>
          rw [hname] at hok
          simp [exceptBind_err] at hok
      | arr xs =>
          rw [hname] at hok
          simp [exceptBind_err] at hok
      | obj kvs =>
          rw [hname] at hok
          simp [exceptBind_err] at hok

/-- claim C10: whenever `get_user_details` succeeds, its result has a
`last_name` entry exactly when the profile's `display_name` is a string
containing a space character; in particular for a space-free, empty or
absent displayName the `last_name` key is absent (not an empty-string
entry). -/
theorem last_name_key_iff_space (response : List (String × Json)) (o : LoadOutcome)
    (d : UserDetails) (hok : get_user_details response o = Except.ok d) :
    d.last_name.isSome = true ↔
      ∃ s : String, dictGet response "display_name" = some (Json.str s) ∧ ' ' ∈ s.data := by
  obtain ⟨s, hname, hlast⟩ := get_user_details_ok_inv response o d hok
  have hnil : ("" : String).data = [] := rfl
  cases hdn : dictGet response "display_name" with
  | none =>
      rw [hdn] at hname
      simp only [Option.getD_none, truthy, if_false] at hname
      injection hname with hs
      rw [← hs] at hlast
      rw [hlast]
      simp [hdn, hnil, splitAtFirstSpace]
  | some v =>
      rw [hdn] at hname
      simp only [Option.getD_some] at hname
      by_cases tb : truthy v = true
      · rw [if_pos tb] at hname
        subst hname
        constructor
        · intro hsome
          refine ⟨s, rfl, ?_⟩
          rw [hlast] at hsome
          cases hsp : splitAtFirstSpace s.data with
          | none =>
              rw [hsp] at hsome
              simp at hsome
          | some p =>
              by_contra hmem
              rw [(splitAtFirstSpace_eq_none_iff s.data).mpr hmem] at hsp
              exact Option.noConfusion hsp
        · rintro ⟨t, ht, hmem⟩
          injection ht with htv
          injection htv with hts
          rw [← hts] at hmem
          rw [hlast]
          cases hsp : splitAtFirstSpace s.data with
          | none =>
              exact absurd ((splitAtFirstSpace_eq_none_iff s.data).mp hsp) (by simp [hmem])
          | some p =>
              obtain ⟨f, l⟩ := p
              rfl
      · rw [if_neg tb] at hname
        injection hname with hs
        rw [← hs] at hlast
        rw [hlast]
        constructor
        · intro hsome
          rw [hnil] at hsome
          simp [splitAtFirstSpace] at hsome
        · rintro ⟨t, ht, hmem⟩
          injection ht with htv
          rw [htv] at tb
          simp only [truthy] at tb
          have htt : t = "" := by
            by_contra hne
            exact tb (by simp [hne])
          rw [htt, hnil] at hmem
          exact absurd hmem (List.not_mem_nil ' ')

/-- claim C10 witness: on the space-free displayName `"Madonna"` the
`last_name` key is absent. -/
theorem last_name_key_iff_space_witness :
    ((⟨Json.null, Json.str "", Json.str "Madonna", none⟩ : UserDetails).last_name.isSome = true ↔
      ∃ s : String, dictGet [("display_name", Json.str "Madonna")] "display_name" =
        some (Json.str s) ∧ ' ' ∈ s.data) :=
  last_name_key_iff_space [("display_name", Json.str "Madonna")]
    (LoadOutcome.ok (emailsBody [])) ⟨Json.null, Json.str "", Json.str "Madonna", none⟩ rfl
